import Mathlib

/-!
Verification development for the wisdom-meeting-assistant application.

The embedding below follows the source files:
  * `supabase/functions/gemini-proxy/index.ts` — the gateway proxy
    (prompt assembly, module task lookup, completion-text extraction);
  * `src/services/geminiService.ts` — the client-side service wrapper;
  * `src/components/MeetingAssistant.tsx` — the workflow controller
    (record selection, correction runs, module analysis runs, module chat,
    step navigation, debounced auto-save).

Stateful code is embedded as explicit state passing: each controller
operation is a function from the pre-state (plus the outcomes of the
external gateway / store calls, passed as parameters) to a result record
carrying the post-state and observability flags (whether the gateway was
invoked, whether inserts were attempted, whether an exception was caught).
-/

namespace MeetingApp

/-- One chat turn, as stored (`role` is the string `"user"` or `"model"`,
matching the TS union type). From `src/types.ts` `ChatMessage`. -/
structure ChatMessage where
  role : String
  text : String
  deriving Repr, DecidableEq

/-- One gateway message in the OpenAI-compatible request body
(`role` is `"system"`, `"user"` or `"assistant"`). -/
structure Msg where
  role : String
  content : String
  deriving Repr, DecidableEq

/-- Executable model of JS `String.prototype.trim()` (and the equivalent
checks via `transcript.trim()` in TS): strip leading and trailing
whitespace. Defined over the character list so that it evaluates by
kernel reduction. -/
def jsTrim (s : String) : String :=
  String.mk
    (((s.data.dropWhile Char.isWhitespace).reverse.dropWhile
        Char.isWhitespace).reverse)

/-! ### Gateway proxy: `supabase/functions/gemini-proxy/index.ts` -/

/-- The generic fallback task string from the `analyzeTranscript` handler. -/
def genericTask : String := "執行深度會議分析"

/-- The fixed five-entry `moduleTaskMap` of the `analyzeTranscript` handler
(`index.ts` lines 211–217); an unknown key yields `none`
(JS: `undefined`). -/
def moduleTaskMap (id : String) : Option String :=
  if id = "A" then some "執行「模組 A：氛圍與張力走勢分析」"
  else if id = "B" then some "執行「模組 B：指定人物建模（行為/決策/語用風格）」"
  else if id = "C" then some "執行「模組 C：潛台詞 / QBQ / 結論與行動點解析」"
  else if id = "D" then some "執行「模組 D：權力結構與角色流轉觀察」"
  else if id = "E" then some "執行「模組 E：會議摘要與結論重構」"
  else none

/-- Task-string selection (`index.ts` lines 219–221):
`moduleId ? (moduleTaskMap[moduleId] || moduleName || generic) : (moduleName || generic)`.
JS truthiness on strings is emptiness; every `moduleTaskMap` value is a
nonempty constant, so a map hit is always truthy. -/
def moduleTask (moduleId moduleName : String) : String :=
  if moduleId ≠ "" then
    match moduleTaskMap moduleId with
    | some t => t
    | none => if moduleName ≠ "" then moduleName else genericTask
  else
    if moduleName ≠ "" then moduleName else genericTask

/-- The transcript-seeding user-message content (`index.ts` lines 229 and 236;
both occurrences are the identical template literal). -/
def seedContent (transcript task : String) : String :=
  "以下是已校正的會議逐字稿：\n---\n" ++ transcript ++
  "\n---\n\n【模組任務目標】\n" ++ task ++
  "\n\n請根據以上逐字稿，執行任務目標，以繁體中文輸出。"

/-- Replay of one stored history message into a gateway message
(`index.ts` lines 239–244): role `user` stays `user`, anything else
becomes `assistant`; content is the stored text. -/
def replayMsg (m : ChatMessage) : Msg :=
  { role := if m.role = "user" then "user" else "assistant", content := m.text }

/-- The message list built by the `analyzeTranscript` handler
(`index.ts` lines 224–245): empty history gets the seeding user message;
nonempty history is replayed in order, with the seeding user message
prepended exactly when the first stored message has role `model`. -/
def buildAnalysisMessages (transcript task : String) (history : List ChatMessage) :
    List Msg :=
  match history with
  | [] => [{ role := "user", content := seedContent transcript task }]
  | h :: _ =>
    (if h.role = "model" then
        [{ role := "user", content := seedContent transcript task }]
      else []) ++ history.map replayMsg

/-- The full gateway request message list (`callGatewayWithHistory`,
`index.ts` lines 134–137): the system prompt followed by the built list. -/
def gatewayRequestMessages (systemPrompt : String) (msgs : List Msg) : List Msg :=
  { role := "system", content := systemPrompt } :: msgs

/-- The `analyzeTranscript` handler up to the gateway call
(`index.ts` lines 201–247): rejects an absent/blank transcript with a 400
error, otherwise builds the message list that is sent to the gateway. -/
def analyzeRequest (transcript moduleId moduleName : String)
    (history : List ChatMessage) : Except String (List Msg) :=
  if jsTrim transcript = "" then Except.error "逐字稿內容不得為空"
  else Except.ok (buildAnalysisMessages transcript
    (moduleTask moduleId moduleName) history)

/-- Completion-text extraction in `callGateway` / `callGatewayWithHistory`
(`index.ts` lines 104–107 and 152–155):
`data.choices?.[0]?.message?.content || ''` followed by the empty check.
`none` models an absent `content` field. -/
def extractText (content : Option String) : Except String String :=
  let text := content.getD ""
  if text = "" then Except.error "AI 回傳空白結果，請稍後重試"
  else Except.ok text

/-! ### Client service: `src/services/geminiService.ts` (`callProxy`) -/

/-- The proxy response as seen by the client: a transport error, a body
with an `error` field, or a body whose `text` field may be absent/blank. -/
inductive ProxyResponse where
  | transportError (message : String)
  | bodyError (message : String)
  | body (text : Option String)
  deriving Repr, DecidableEq

/-- `callProxy` (`geminiService.ts` lines 32–41): propagates transport and
body errors, and rejects an absent or empty `text` field with
`API 回傳空白結果，請稍後重試` (JS: `if (!data?.text) throw ...`). -/
def callProxy (resp : ProxyResponse) : Except String String :=
  match resp with
  | .transportError m => Except.error m
  | .bodyError m => Except.error m
  | .body t =>
    let text := t.getD ""
    if text = "" then Except.error "API 回傳空白結果，請稍後重試"
    else Except.ok text

/-! ### Workflow controller: `src/components/MeetingAssistant.tsx`
(second variant, lines 679–1458) -/

/-- In-memory transcript version (`TranscriptVersion` interface). -/
structure TranscriptVersion where
  versionNumber : Nat
  correctedTranscript : String
  deriving Repr, DecidableEq

/-- In-memory module version (`ModuleVersion` interface); `id` is the
store-generated row id used to tag chat-message rows. -/
structure ModuleVersion where
  id : String
  moduleId : String
  versionNumber : Nat
  messages : List ChatMessage
  deriving Repr, DecidableEq

/-- JS-object lookup `m[key]` on an association list: `none` when absent. -/
def alist.lookup {α : Type} (m : List (String × α)) (key : String) : Option α :=
  (m.find? (fun p => p.1 = key)).map Prod.snd

/-- JS-object update `{...m, [key]: v}`: replaces the entry in place when
the key exists, otherwise adds it. JS object keys are unique, so replacing
the first matching entry is the exact behavior. -/
def alist.set {α : Type} : List (String × α) → String → α → List (String × α)
  | [], key, v => [(key, v)]
  | p :: rest, key, v =>
    if p.1 = key then (key, v) :: rest else p :: alist.set rest key v

/-- `moduleVersionsMap[moduleId] || []`. -/
def lookupVersions (m : List (String × List ModuleVersion)) (id : String) :
    List ModuleVersion :=
  (alist.lookup m id).getD []

/-- The controller state tracked by the claims: the React `useState` pieces
of `MeetingAssistant` that the four mutating operations read or write. -/
structure MAState where
  activeRecordId : Option String
  step : Nat
  localTranscript : String
  transcriptVersions : List TranscriptVersion
  activeTranscriptVersion : Nat
  moduleVersionsMap : List (String × List ModuleVersion)
  activeModuleVersion : List (String × Nat)
  chatInputs : List (String × String)
  errorMsg : Option String
  isLoading : Bool
  deriving Repr, DecidableEq

/-- The persisted rows the operations insert (record-scoped slice of the
store): transcript-version rows, module-version rows, chat-message rows
keyed by the parent module version's row id. -/
structure Store where
  transcriptRows : List (Nat × String)
  moduleRows : List (String × Nat)
  chatRows : List (String × String × String)
  deriving Repr, DecidableEq

/-- Result of one controller operation: the post-state, the post-store, and
observability flags — whether the gateway client was invoked, whether a
version-row insert was attempted, whether a version was actually created,
and whether an exception was caught (the `catch` branch ran). -/
structure OpResult where
  state : MAState
  store : Store
  gatewayCalled : Bool
  tvInsertAttempted : Bool
  createdTV : Bool
  mvInsertAttempted : Bool
  createdMV : Bool
  raised : Bool
  deriving Repr, DecidableEq

/-- `currentTranscriptVersion` (line 899): the version whose number equals
the active pointer, if any. -/
def currentTranscriptVersion (s : MAState) : Option TranscriptVersion :=
  s.transcriptVersions.find? (fun v => v.versionNumber = s.activeTranscriptVersion)

/-- Modelled from the spec: `INSIGHT_MODULE_CONFIGS` lives in
`src/constants.ts`, which is not among the provided source files; the spec
(§6, §9, glossary) fixes it as a closed five-entry table keyed `A`–`E`
mapping each module to a display name (and prompt template). Only the key
set and the names matter to the claims. -/
def moduleConfigName (id : String) : Option String :=
  if id = "A" then some "氛圍與張力走勢分析"
  else if id = "B" then some "指定人物建模"
  else if id = "C" then some "潛台詞與 QBQ 解析"
  else if id = "D" then some "權力結構流轉觀察"
  else if id = "E" then some "會議摘要與結論重構"
  else none

/-- `runCorrection` (lines 965–1000). `gw` is the outcome of
`geminiService.correctTranscript` (an `Except` models a JS throw);
`insertOk` is whether the `transcript_versions` insert returned a row. -/
def runCorrection (gw : Except String String) (insertOk : Bool)
    (s : MAState) (st : Store) : OpResult :=
  if s.activeRecordId = none ∨ jsTrim s.localTranscript = "" then
    { state := { s with errorMsg := some "請先輸入原始逐字稿內容" }, store := st,
      gatewayCalled := false, tvInsertAttempted := false, createdTV := false,
      mvInsertAttempted := false, createdMV := false, raised := false }
  else
    match gw with
    | .error e =>
      { state := { s with errorMsg := some ("校正發生錯誤：" ++ e), isLoading := false },
        store := st, gatewayCalled := true, tvInsertAttempted := false,
        createdTV := false, mvInsertAttempted := false, createdMV := false,
        raised := true }
    | .ok result =>
      if jsTrim result = "" then
        { state := { s with
            errorMsg := some "校正發生錯誤：AI 回傳空白結果，請稍後重試",
            isLoading := false },
          store := st, gatewayCalled := true, tvInsertAttempted := false,
          createdTV := false, mvInsertAttempted := false, createdMV := false,
          raised := true }
      else
        let nextVersion := s.transcriptVersions.length + 1
        if insertOk then
          { state := { s with
              errorMsg := none,
              transcriptVersions := s.transcriptVersions ++
                [{ versionNumber := nextVersion, correctedTranscript := result }],
              activeTranscriptVersion := nextVersion,
              step := 2, isLoading := false },
            store := { st with transcriptRows := st.transcriptRows ++ [(nextVersion, result)] },
            gatewayCalled := true, tvInsertAttempted := true, createdTV := true,
            mvInsertAttempted := false, createdMV := false, raised := false }
        else
          { state := { s with errorMsg := none, step := 2, isLoading := false },
            store := st, gatewayCalled := true, tvInsertAttempted := true,
            createdTV := false, mvInsertAttempted := false, createdMV := false,
            raised := false }

/-- Deterministic stand-in for the store-generated `module_versions` row id
(the source treats it as opaque). -/
def mkModuleVersionId (moduleId : String) (n : Nat) : String :=
  moduleId ++ "-v" ++ toString n

/-- `runInitialAnalysis` (lines 1003–1052). `gw` is the outcome of
`geminiService.analyzeTranscript`; `insertOk` is whether the
`module_versions` insert returned a row (`!mvData` throws
`儲存模組版本失敗`). The `chat_messages` insert result is discarded by the
source (`await` without check), so it carries no outcome parameter. -/
def runInitialAnalysis (moduleId : String) (gw : Except String String)
    (insertOk : Bool) (s : MAState) (st : Store) : OpResult :=
  match currentTranscriptVersion s with
  | none =>
    { state := { s with errorMsg := some "請先完成逐字稿校正後再執行模組分析" },
      store := st, gatewayCalled := false, tvInsertAttempted := false,
      createdTV := false, mvInsertAttempted := false, createdMV := false,
      raised := false }
  | some _ =>
    match moduleConfigName moduleId with
    | none =>
      { state := s, store := st, gatewayCalled := false,
        tvInsertAttempted := false, createdTV := false,
        mvInsertAttempted := false, createdMV := false, raised := false }
    | some _ =>
      match gw with
      | .error e =>
        { state := { s with errorMsg := some ("分析發生錯誤：" ++ e), isLoading := false },
          store := st, gatewayCalled := true, tvInsertAttempted := false,
          createdTV := false, mvInsertAttempted := false, createdMV := false,
          raised := true }
      | .ok result =>
        if jsTrim result = "" then
          { state := { s with
              errorMsg := some "分析發生錯誤：AI 回傳空白結果，請稍後重試",
              isLoading := false },
            store := st, gatewayCalled := true, tvInsertAttempted := false,
            createdTV := false, mvInsertAttempted := false, createdMV := false,
            raised := true }
        else
          let existingVersions := lookupVersions s.moduleVersionsMap moduleId
          let nextVersion := existingVersions.length + 1
          if insertOk then
            let newId := mkModuleVersionId moduleId nextVersion
            let firstMsg : ChatMessage := { role := "model", text := result }
            let newModVer : ModuleVersion :=
              { id := newId, moduleId := moduleId, versionNumber := nextVersion,
                messages := [firstMsg] }
            { state := { s with
                errorMsg := none,
                moduleVersionsMap := alist.set s.moduleVersionsMap moduleId
                  (existingVersions ++ [newModVer]),
                activeModuleVersion := alist.set s.activeModuleVersion moduleId nextVersion,
                step := 3, isLoading := false },
              store := { st with
                moduleRows := st.moduleRows ++ [(moduleId, nextVersion)],
                chatRows := st.chatRows ++ [(newId, "model", result)] },
              gatewayCalled := true, tvInsertAttempted := false, createdTV := false,
              mvInsertAttempted := true, createdMV := true, raised := false }
          else
            { state := { s with
                errorMsg := some "分析發生錯誤：儲存模組版本失敗",
                isLoading := false },
              store := st, gatewayCalled := true, tvInsertAttempted := false,
              createdTV := false, mvInsertAttempted := true, createdMV := false,
              raised := true }

/-- JS `x || 1` on an optional number: `undefined` and `0` are falsy. -/
def jsOr1 (o : Option Nat) : Nat :=
  match o with
  | some n => if n = 0 then 1 else n
  | none => 1

/-- `sendModuleChat` (lines 1055–1098). `gw` is the outcome of
`geminiService.analyzeTranscript` on the accumulated history. Every guard
failure is a plain `return` — no error message is set. The user message is
appended to the in-memory list and inserted into the store before the
gateway call; the `catch` branch only sets the error message. -/
def sendModuleChat (moduleId : String) (gw : Except String String)
    (s : MAState) (st : Store) : OpResult :=
  let input := (alist.lookup s.chatInputs moduleId).getD ""
  if jsTrim input = "" ∨ s.isLoading ∨ currentTranscriptVersion s = none then
    { state := s, store := st, gatewayCalled := false, tvInsertAttempted := false,
      createdTV := false, mvInsertAttempted := false, createdMV := false,
      raised := false }
  else
    let versions := lookupVersions s.moduleVersionsMap moduleId
    -- JS: `activeModuleVersion[moduleId] || 1` (0 would be falsy too)
    let activeVerNum := jsOr1 (alist.lookup s.activeModuleVersion moduleId)
    match versions.find? (fun v => v.versionNumber = activeVerNum) with
    | none =>
      { state := s, store := st, gatewayCalled := false, tvInsertAttempted := false,
        createdTV := false, mvInsertAttempted := false, createdMV := false,
        raised := false }
    | some activeVer =>
      let userMsg : ChatMessage := { role := "user", text := input }
      let updatedMsgs := activeVer.messages ++ [userMsg]
      let s1 := { s with
        moduleVersionsMap := alist.set s.moduleVersionsMap moduleId
          (versions.map (fun (v : ModuleVersion) =>
            if v.versionNumber = activeVerNum then { v with messages := updatedMsgs } else v)),
        chatInputs := alist.set s.chatInputs moduleId "",
        errorMsg := none }
      let st1 := { st with chatRows := st.chatRows ++ [(activeVer.id, "user", input)] }
      match gw with
      | .error e =>
        { state := { s1 with
            errorMsg := some ("對話分析發生錯誤：" ++ e),
            isLoading := false },
          store := st1, gatewayCalled := true, tvInsertAttempted := false,
          createdTV := false, mvInsertAttempted := false, createdMV := false,
          raised := true }
      | .ok response =>
        if jsTrim response = "" then
          { state := { s1 with
              errorMsg := some "對話分析發生錯誤：AI 回傳空白結果",
              isLoading := false },
            store := st1, gatewayCalled := true, tvInsertAttempted := false,
            createdTV := false, mvInsertAttempted := false, createdMV := false,
            raised := true }
        else
          let aiMsg : ChatMessage := { role := "model", text := response }
          { state := { s1 with
              moduleVersionsMap := alist.set s1.moduleVersionsMap moduleId
                ((lookupVersions s1.moduleVersionsMap moduleId).map (fun (v : ModuleVersion) =>
                  if v.versionNumber = activeVerNum then
                    { v with messages := updatedMsgs ++ [aiMsg] } else v)),
              isLoading := false },
            store := { st1 with chatRows := st1.chatRows ++ [(activeVer.id, "model", response)] },
            gatewayCalled := true, tvInsertAttempted := false, createdTV := false,
            mvInsertAttempted := false, createdMV := false, raised := false }

/-- Whether a header step button is disabled (line 1183):
`disabled={(s === 2 || s === 3) && transcriptVersions.length === 0}`. -/
def navDisabled (s : MAState) (target : Nat) : Bool :=
  (target = 2 ∨ target = 3) ∧ s.transcriptVersions.length = 0

/-- Clicking a header step button (lines 1181–1188): a disabled button
fires no `onClick`, an enabled one sets the step. -/
def clickNav (target : Nat) (s : MAState) : MAState :=
  if navDisabled s target then s else { s with step := target }

/-- The `進入解讀矩陣` button (line 1297): rendered only on step 2, sets
step 3 unconditionally when clicked. -/
def enterInsight (s : MAState) : MAState :=
  if s.step = 2 then { s with step := 3 } else s

/-! ### Record selection: `loadRecordData` (lines 863–894) plus the record
list `onClick` (line 1131). -/

/-- The `newMap` construction of `loadRecordData` (lines 880–887): group the
module-version rows by module id, preserving row order within each module. -/
def buildModuleMap (rows : List ModuleVersion) : List (String × List ModuleVersion) :=
  rows.foldl
    (fun m mv => alist.set m mv.moduleId (lookupVersions m mv.moduleId ++ [mv])) []

/-- The `initActive` construction (lines 889–893): each module's active
version is the last element of its (ascending-ordered) version list. Every
entry built by `buildModuleMap` is nonempty, so the default 0 is never
taken on real inputs. -/
def latestActive (m : List (String × List ModuleVersion)) : List (String × Nat) :=
  m.map (fun p => (p.1, (p.2.map (fun v => v.versionNumber)).getLastD 0))

/-- Selecting a record: the record-list `onClick` (line 1131) sets the
active record, resets the step to 1 and clears the error; the
`loadRecordData` effect (lines 863–894) then loads the edit buffers, the
transcript versions (query ordered ascending by version number, reflected
in the `tvRows` argument order), the module map (query ordered ascending,
reflected in `mvRows`), and the active pointers. -/
def selectRecord (rid raw : String) (tvRows : List TranscriptVersion)
    (mvRows : List ModuleVersion) (s : MAState) : MAState :=
  { s with
    activeRecordId := some rid,
    step := 1,
    errorMsg := none,
    localTranscript := raw,
    transcriptVersions := tvRows,
    activeTranscriptVersion := match tvRows.getLast? with
      | some v => v.versionNumber
      | none => 1,
    moduleVersionsMap := buildModuleMap mvRows,
    activeModuleVersion := latestActive (buildModuleMap mvRows) }

/-! ### Debounced auto-save: `handleMetadataChange` / `handleTranscriptChange`
(lines 945–958), sharing the single `saveTimeoutRef`. -/

/-- The five free-text metadata fields (`src/types.ts` `MeetingMetadata`). -/
structure MeetingMetadata where
  subject : String
  keywords : String
  speakers : String
  terminology : String
  targetLength : String
  deriving Repr, DecidableEq

/-- A metadata field selector. -/
inductive MetaField where
  | subject | keywords | speakers | terminology | targetLength
  deriving Repr, DecidableEq

/-- `{ ...localMetadata, [field]: value }`. -/
def setMetaField (f : MetaField) (value : String) (m : MeetingMetadata) :
    MeetingMetadata :=
  match f with
  | .subject => { m with subject := value }
  | .keywords => { m with keywords := value }
  | .speakers => { m with speakers := value }
  | .terminology => { m with terminology := value }
  | .targetLength => { m with targetLength := value }

/-- A scheduled persistence write: `saveRecordFields` is called with either
the whole metadata object or the raw transcript. -/
inductive SaveFields where
  | metadata (m : MeetingMetadata)
  | rawTranscript (t : String)
  deriving Repr, DecidableEq

/-- Debounce state: the local edit buffers, the single pending timer
(`saveTimeoutRef`, shared by both handlers), and the store writes that have
actually fired. -/
structure DebounceState where
  localMetadata : MeetingMetadata
  localTranscript : String
  pending : Option SaveFields
  writes : List SaveFields
  deriving Repr, DecidableEq

/-- An edit event: one keystroke-level change to a metadata field or to the
transcript textarea. -/
inductive EditEv where
  | metadata (f : MetaField) (value : String)
  | transcript (value : String)
  deriving Repr, DecidableEq

/-- `handleMetadataChange` (lines 945–951): update the buffer synchronously,
cancel any pending timer, schedule a write of the updated metadata.
`handleTranscriptChange` (lines 953–958) is the same for the transcript.
Cancel-and-reschedule is the replacement of `pending`. -/
def applyEdit (d : DebounceState) : EditEv → DebounceState
  | .metadata f value =>
    let updated := setMetaField f value d.localMetadata
    { d with localMetadata := updated, pending := some (.metadata updated) }
  | .transcript value =>
    { d with localTranscript := value, pending := some (.rawTranscript value) }

/-- A burst of edits applied in order. -/
def applyEdits (d : DebounceState) (es : List EditEv) : DebounceState :=
  es.foldl applyEdit d

/-- The timer firing: performs the pending store write, if any. -/
def fireTimer (d : DebounceState) : DebounceState :=
  match d.pending with
  | some w => { d with pending := none, writes := d.writes ++ [w] }
  | none => d

/-! ### Event traces over a single record -/

/-- One user-visible event on the active record. Gateway and store outcomes
are carried by the event, since they are external to the controller. -/
inductive Ev where
  | correct (gw : Except String String) (insertOk : Bool)
  | analyze (moduleId : String) (gw : Except String String) (insertOk : Bool)
  | chat (moduleId : String) (gw : Except String String)
  | typeChat (moduleId text : String)
  | editTranscript (t : String)
  | nav (target : Nat)
  | insight
  deriving Repr

/-- A no-mutation `OpResult` wrapper for pure-navigation events. -/
def pureResult (s : MAState) (st : Store) : OpResult :=
  { state := s, store := st, gatewayCalled := false, tvInsertAttempted := false,
    createdTV := false, mvInsertAttempted := false, createdMV := false,
    raised := false }

/-- One event step. `typeChat` is the chat input `onChange` (line 1413);
`editTranscript` is the buffer half of `handleTranscriptChange`. -/
def stepEv (s : MAState) (st : Store) : Ev → OpResult
  | .correct gw ok => runCorrection gw ok s st
  | .analyze id gw ok => runInitialAnalysis id gw ok s st
  | .chat id gw => sendModuleChat id gw s st
  | .typeChat id text =>
      pureResult { s with chatInputs := alist.set s.chatInputs id text } st
  | .editTranscript t => pureResult { s with localTranscript := t } st
  | .nav t => pureResult (clickNav t s) st
  | .insight => pureResult (enterInsight s) st

/-- Run a trace of events. -/
def runTrace (s : MAState) (st : Store) : List Ev → MAState × Store
  | [] => (s, st)
  | ev :: evs =>
    let r := stepEv s st ev
    runTrace r.state r.store evs

/-- Number of events in the trace that created a `TranscriptVersion`
(the successful correction runs). -/
def countTV (s : MAState) (st : Store) : List Ev → Nat
  | [] => 0
  | ev :: evs =>
    let r := stepEv s st ev
    (if r.createdTV then 1 else 0) + countTV r.state r.store evs

/-- Number of events in the trace that created a `ModuleVersion` for the
given module (the successful analysis runs of that module). -/
def countMV (id : String) (s : MAState) (st : Store) : List Ev → Nat
  | [] => 0
  | ev :: evs =>
    let r := stepEv s st ev
    (match ev with
      | .analyze mid _ _ => if mid = id ∧ r.createdMV then 1 else 0
      | _ => 0) + countMV id r.state r.store evs

/-- The state right after `createNewRecord` (lines 902–917) with transcript
buffer `t` typed in: empty version lists, step 1, no error, idle. -/
def initState (rid t : String) : MAState :=
  { activeRecordId := some rid, step := 1, localTranscript := t,
    transcriptVersions := [], activeTranscriptVersion := 1,
    moduleVersionsMap := [], activeModuleVersion := [], chatInputs := [],
    errorMsg := none, isLoading := false }

/-- The empty record-scoped store slice. -/
def initStore : Store :=
  { transcriptRows := [], moduleRows := [], chatRows := [] }

/-- A list of naturals is exactly `1, 2, …, length`. -/
def contiguousFromOne (l : List Nat) : Prop :=
  l = List.range' 1 l.length

/-- The version-sequencing invariant: transcript version numbers and each
module's version numbers are contiguous ascending from 1. -/
def VersionInv (s : MAState) : Prop :=
  contiguousFromOne (s.transcriptVersions.map (fun v => v.versionNumber)) ∧
  ∀ id, contiguousFromOne
    ((lookupVersions s.moduleVersionsMap id).map (fun v => v.versionNumber))

/-! ### Association-list lemmas -/

theorem alist.lookup_set_self {α : Type} (m : List (String × α)) (k : String)
    (v : α) : alist.lookup (alist.set m k v) k = some v := by
  induction m with
  | nil => simp [alist.set, alist.lookup, List.find?]
  | cons p rest ih =>
    by_cases h : p.1 = k
    · simp [alist.set, alist.lookup, List.find?, h]
    · simp only [alist.set, if_neg h]
      simpa [alist.lookup, List.find?, h] using ih

theorem alist.lookup_set_ne {α : Type} (m : List (String × α)) (k k' : String)
    (v : α) (h : k' ≠ k) :
    alist.lookup (alist.set m k v) k' = alist.lookup m k' := by
  induction m with
  | nil => simp [alist.set, alist.lookup, List.find?, Ne.symm h]
  | cons p rest ih =>
    by_cases hp : p.1 = k
    · subst hp
      simp [alist.set, alist.lookup, List.find?, Ne.symm h]
    · simp only [alist.set, if_neg hp]
      by_cases hp' : p.1 = k'
      · simp [alist.lookup, List.find?, hp']
      · simpa [alist.lookup, List.find?, hp'] using ih

theorem lookupVersions_set_self (m : List (String × List ModuleVersion))
    (k : String) (v : List ModuleVersion) :
    lookupVersions (alist.set m k v) k = v := by
  simp [lookupVersions, alist.lookup_set_self]

theorem lookupVersions_set_ne (m : List (String × List ModuleVersion))
    (k k' : String) (v : List ModuleVersion) (h : k' ≠ k) :
    lookupVersions (alist.set m k v) k' = lookupVersions m k' := by
  simp [lookupVersions, alist.lookup_set_ne m k k' v h]

/-- Appending the next number keeps a list contiguous from 1. -/
theorem contiguousFromOne_append (l : List Nat)
    (h : contiguousFromOne l) : contiguousFromOne (l ++ [l.length + 1]) := by
  unfold contiguousFromOne at h ⊢
  have hc : List.range' 1 (l.length + 1) 1 =
      List.range' 1 l.length 1 ++ [1 + 1 * l.length] := List.range'_concat 1 l.length
  simp only [List.length_append, List.length_cons, List.length_nil]
  calc l ++ [l.length + 1]
      = List.range' 1 l.length ++ [1 + 1 * l.length] := by
        rw [← h]; simp [Nat.add_comm]
    _ = List.range' 1 (l.length + 1) := hc.symm
    _ = List.range' 1 (l.length + 0 + 1) := by simp

/-- A message-only update preserves the mapped version numbers. -/
theorem map_versionNumber_msgUpdate (l : List ModuleVersion) (n : Nat)
    (f : ModuleVersion → List ChatMessage) :
    ((l.map (fun (v : ModuleVersion) =>
        if v.versionNumber = n then { v with messages := f v } else v)).map
      (fun v => v.versionNumber)) = l.map (fun v => v.versionNumber) := by
  induction l with
  | nil => simp
  | cons a rest ih =>
    by_cases h : a.versionNumber = n <;> simp [h, ih]

/-! ### Per-operation shape lemmas -/

theorem runCorrection_moduleMap (gw : Except String String) (ok : Bool)
    (s : MAState) (st : Store) :
    (runCorrection gw ok s st).state.moduleVersionsMap = s.moduleVersionsMap := by
  unfold runCorrection
  split
  · rfl
  · split
    · rfl
    · split
      · rfl
      · split <;> rfl

theorem runCorrection_created (gw : Except String String) (ok : Bool)
    (s : MAState) (st : Store) :
    (runCorrection gw ok s st).createdTV = true →
    ∃ text, (runCorrection gw ok s st).state.transcriptVersions =
      s.transcriptVersions ++
        [{ versionNumber := s.transcriptVersions.length + 1,
           correctedTranscript := text }] := by
  unfold runCorrection
  split
  · intro h; simp at h
  · split
    · intro h; simp at h
    · split
      · intro h; simp at h
      · split
        · intro _; exact ⟨_, rfl⟩
        · intro h; simp at h

theorem runCorrection_notCreated (gw : Except String String) (ok : Bool)
    (s : MAState) (st : Store) :
    (runCorrection gw ok s st).createdTV = false →
    (runCorrection gw ok s st).state.transcriptVersions = s.transcriptVersions := by
  unfold runCorrection
  split
  · intro _; rfl
  · split
    · intro _; rfl
    · split
      · intro _; rfl
      · split
        · intro h; simp at h
        · intro _; rfl

theorem runInitialAnalysis_tv (moduleId : String) (gw : Except String String)
    (ok : Bool) (s : MAState) (st : Store) :
    (runInitialAnalysis moduleId gw ok s st).state.transcriptVersions =
      s.transcriptVersions := by
  unfold runInitialAnalysis
  split
  · rfl
  · split
    · rfl
    · split
      · rfl
      · split
        · rfl
        · split <;> rfl

theorem runInitialAnalysis_createdTV (moduleId : String)
    (gw : Except String String) (ok : Bool) (s : MAState) (st : Store) :
    (runInitialAnalysis moduleId gw ok s st).createdTV = false := by
  unfold runInitialAnalysis
  split
  · rfl
  · split
    · rfl
    · split
      · rfl
      · split
        · rfl
        · split <;> rfl

theorem runInitialAnalysis_created (moduleId : String)
    (gw : Except String String) (ok : Bool) (s : MAState) (st : Store) :
    (runInitialAnalysis moduleId gw ok s st).createdMV = true →
    ∃ mv : ModuleVersion,
      mv.versionNumber = (lookupVersions s.moduleVersionsMap moduleId).length + 1 ∧
      (runInitialAnalysis moduleId gw ok s st).state.moduleVersionsMap =
        alist.set s.moduleVersionsMap moduleId
          (lookupVersions s.moduleVersionsMap moduleId ++ [mv]) := by
  unfold runInitialAnalysis
  split
  · intro h; simp at h
  · split
    · intro h; simp at h
    · split
      · intro h; simp at h
      · split
        · intro h; simp at h
        · split
          · intro _; exact ⟨_, rfl, rfl⟩
          · intro h; simp at h

theorem runInitialAnalysis_notCreated (moduleId : String)
    (gw : Except String String) (ok : Bool) (s : MAState) (st : Store) :
    (runInitialAnalysis moduleId gw ok s st).createdMV = false →
    (runInitialAnalysis moduleId gw ok s st).state.moduleVersionsMap =
      s.moduleVersionsMap := by
  unfold runInitialAnalysis
  split
  · intro _; rfl
  · split
    · intro _; rfl
    · split
      · intro _; rfl
      · split
        · intro _; rfl
        · split
          · intro h; simp at h
          · intro _; rfl

theorem sendModuleChat_tv (moduleId : String) (gw : Except String String)
    (s : MAState) (st : Store) :
    (sendModuleChat moduleId gw s st).state.transcriptVersions =
      s.transcriptVersions := by
  simp only [sendModuleChat]
  repeat' split
  all_goals rfl

theorem sendModuleChat_createdFlags (moduleId : String)
    (gw : Except String String) (s : MAState) (st : Store) :
    (sendModuleChat moduleId gw s st).createdTV = false ∧
    (sendModuleChat moduleId gw s st).createdMV = false := by
  simp only [sendModuleChat]
  repeat' split
  all_goals exact ⟨rfl, rfl⟩

theorem sendModuleChat_nums (moduleId : String) (gw : Except String String)
    (s : MAState) (st : Store) (id : String) :
    ((lookupVersions (sendModuleChat moduleId gw s st).state.moduleVersionsMap id).map
      (fun v => v.versionNumber)) =
    ((lookupVersions s.moduleVersionsMap id).map (fun v => v.versionNumber)) := by
  simp only [sendModuleChat]
  by_cases hid : id = moduleId
  · subst hid
    repeat' split
    all_goals try rfl
    all_goals simp only [lookupVersions_set_self, map_versionNumber_msgUpdate]
  · repeat' split
    all_goals try rfl
    all_goals simp only [lookupVersions_set_ne _ _ _ _ hid]

/-! ### The step-level sequencing lemma and the trace invariant -/

theorem contiguousFromOne_map_append (l : List ModuleVersion)
    (mv : ModuleVersion) (hmv : mv.versionNumber = l.length + 1)
    (h : contiguousFromOne (l.map (fun v => v.versionNumber))) :
    contiguousFromOne ((l ++ [mv]).map (fun v => v.versionNumber)) := by
  have := contiguousFromOne_append (l.map (fun v => v.versionNumber)) h
  simpa [hmv] using this

theorem stepEv_spec (s : MAState) (st : Store) (ev : Ev) (hInv : VersionInv s) :
    VersionInv (stepEv s st ev).state ∧
    (stepEv s st ev).state.transcriptVersions.length =
      s.transcriptVersions.length +
        (if (stepEv s st ev).createdTV then 1 else 0) ∧
    ∀ id, (lookupVersions (stepEv s st ev).state.moduleVersionsMap id).length =
      (lookupVersions s.moduleVersionsMap id).length +
        (match ev with
          | .analyze mid _ _ => if mid = id ∧ (stepEv s st ev).createdMV then 1 else 0
          | _ => 0) := by
  obtain ⟨hTV, hMV⟩ := hInv
  cases ev with
  | correct gw ok =>
    simp only [stepEv]
    by_cases h : (runCorrection gw ok s st).createdTV
    · obtain ⟨text, htv⟩ := runCorrection_created gw ok s st h
      refine ⟨⟨?_, ?_⟩, ?_, ?_⟩
      · rw [htv]
        have hstep := contiguousFromOne_append
          (s.transcriptVersions.map (fun v => v.versionNumber)) hTV
        simpa [contiguousFromOne, List.map_append] using hstep
      · intro id; rw [runCorrection_moduleMap]; exact hMV id
      · rw [htv]; simp [h]
      · intro id; simp [runCorrection_moduleMap]
    · have htv := runCorrection_notCreated gw ok s st (by simpa using h)
      refine ⟨⟨?_, ?_⟩, ?_, ?_⟩
      · rw [htv]; exact hTV
      · intro id; rw [runCorrection_moduleMap]; exact hMV id
      · rw [htv]; simp [h]
      · intro id; simp [runCorrection_moduleMap]
  | analyze mid gw ok =>
    simp only [stepEv]
    by_cases h : (runInitialAnalysis mid gw ok s st).createdMV
    · obtain ⟨mv, hnum, hmap⟩ := runInitialAnalysis_created mid gw ok s st h
      refine ⟨⟨?_, ?_⟩, ?_, ?_⟩
      · rw [runInitialAnalysis_tv]; exact hTV
      · intro id
        rw [hmap]
        by_cases hid : id = mid
        · subst hid
          rw [lookupVersions_set_self]
          exact contiguousFromOne_map_append _ _ hnum (hMV id)
        · rw [lookupVersions_set_ne _ _ _ _ hid]; exact hMV id
      · rw [runInitialAnalysis_tv]; simp [runInitialAnalysis_createdTV]
      · intro id
        rw [hmap]
        by_cases hid : mid = id
        · subst hid
          rw [lookupVersions_set_self]
          simp [h]
        · rw [lookupVersions_set_ne _ _ _ _ (Ne.symm hid)]
          simp [hid]
    · have hmap := runInitialAnalysis_notCreated mid gw ok s st (by simpa using h)
      refine ⟨⟨?_, ?_⟩, ?_, ?_⟩
      · rw [runInitialAnalysis_tv]; exact hTV
      · intro id; rw [hmap]; exact hMV id
      · rw [runInitialAnalysis_tv]; simp [runInitialAnalysis_createdTV]
      · intro id; rw [hmap]; simp [h]
  | chat mid gw =>
    simp only [stepEv]
    have hflags := sendModuleChat_createdFlags mid gw s st
    refine ⟨⟨?_, ?_⟩, ?_, ?_⟩
    · rw [sendModuleChat_tv]; exact hTV
    · intro id
      have hn := sendModuleChat_nums mid gw s st id
      unfold contiguousFromOne at hMV ⊢
      rw [hn]
      exact hMV id
    · rw [sendModuleChat_tv]; simp [hflags.1]
    · intro id
      have hn := sendModuleChat_nums mid gw s st id
      have h1 := congrArg List.length hn
      simpa using h1
  | typeChat id text =>
    exact ⟨⟨hTV, hMV⟩, by simp [stepEv, pureResult], by intro id; simp [stepEv, pureResult]⟩
  | editTranscript t =>
    exact ⟨⟨hTV, hMV⟩, by simp [stepEv, pureResult], by intro id; simp [stepEv, pureResult]⟩
  | nav t =>
    refine ⟨⟨?_, ?_⟩, ?_, ?_⟩
    · simp only [stepEv, pureResult, clickNav]
      split <;> exact hTV
    · intro id
      simp only [stepEv, pureResult, clickNav]
      split <;> exact hMV id
    · simp only [stepEv, pureResult, clickNav]
      split <;> simp
    · intro id
      simp only [stepEv, pureResult, clickNav]
      split <;> simp
  | insight =>
    refine ⟨⟨?_, ?_⟩, ?_, ?_⟩
    · simp only [stepEv, pureResult, enterInsight]
      split <;> exact hTV
    · intro id
      simp only [stepEv, pureResult, enterInsight]
      split <;> exact hMV id
    · simp only [stepEv, pureResult, enterInsight]
      split <;> simp
    · intro id
      simp only [stepEv, pureResult, enterInsight]
      split <;> simp

theorem runTrace_spec (evs : List Ev) : ∀ (s : MAState) (st : Store),
    VersionInv s →
    VersionInv (runTrace s st evs).1 ∧
    (runTrace s st evs).1.transcriptVersions.length =
      s.transcriptVersions.length + countTV s st evs ∧
    ∀ id, (lookupVersions (runTrace s st evs).1.moduleVersionsMap id).length =
      (lookupVersions s.moduleVersionsMap id).length + countMV id s st evs := by
  induction evs with
  | nil =>
    intro s st hInv
    exact ⟨hInv, by simp [runTrace, countTV], by intro id; simp [runTrace, countMV]⟩
  | cons ev evs ih =>
    intro s st hInv
    obtain ⟨hInv1, hlen1, hmod1⟩ := stepEv_spec s st ev hInv
    obtain ⟨hInv2, hlen2, hmod2⟩ := ih (stepEv s st ev).state (stepEv s st ev).store hInv1
    refine ⟨?_, ?_, ?_⟩
    · simpa [runTrace] using hInv2
    · show (runTrace (stepEv s st ev).state (stepEv s st ev).store evs).1.transcriptVersions.length
        = s.transcriptVersions.length + countTV s st (ev :: evs)
      rw [hlen2, hlen1]
      simp [countTV]
      omega
    · intro id
      show (lookupVersions (runTrace (stepEv s st ev).state (stepEv s st ev).store evs).1.moduleVersionsMap id).length
        = (lookupVersions s.moduleVersionsMap id).length + countMV id s st (ev :: evs)
      rw [hmod2 id, hmod1 id]
      cases ev <;> simp [countMV] <;> omega

/-! ### Claim theorems -/

/-- Claim C1: over any event trace on a freshly created record, the
transcript version numbers are exactly `1..N` with `N` the number of
version-creating (successful) correction runs — failed attempts consume no
number — and each module's version numbers are their own contiguous
sequence from 1 whose length is that module's number of successful
analysis runs, independent of other modules and of transcript versions. -/
theorem c1_version_sequencing (rid t : String) (evs : List Ev) :
    contiguousFromOne
      ((runTrace (initState rid t) initStore evs).1.transcriptVersions.map
        (fun v => v.versionNumber)) ∧
    (runTrace (initState rid t) initStore evs).1.transcriptVersions.length =
      countTV (initState rid t) initStore evs ∧
    ∀ id,
      contiguousFromOne
        ((lookupVersions
            (runTrace (initState rid t) initStore evs).1.moduleVersionsMap id).map
          (fun v => v.versionNumber)) ∧
      (lookupVersions
          (runTrace (initState rid t) initStore evs).1.moduleVersionsMap id).length =
        countMV id (initState rid t) initStore evs := by
  have hInit : VersionInv (initState rid t) := by
    refine ⟨by simp [initState, contiguousFromOne], ?_⟩
    intro id
    simp [initState, contiguousFromOne, lookupVersions, alist.lookup, List.find?]
  obtain ⟨⟨h1, h2⟩, h3, h4⟩ := runTrace_spec evs (initState rid t) initStore hInit
  refine ⟨h1, ?_, ?_⟩
  · simpa [initState] using h3
  · intro id
    refine ⟨h2 id, ?_⟩
    have h5 := h4 id
    simpa [initState, lookupVersions, alist.lookup, List.find?] using h5

/-- Claim C2: when the stored history starts with a `model` message, the
assembled gateway request is the system prompt, then a synthesized
`user` message whose content is exactly the first-turn seeding prompt and
contains the corrected transcript verbatim, then the replayed history in
order. -/
theorem c2_seed_invariant (sys transcript task : String) (h : ChatMessage)
    (rest : List ChatMessage) (hrole : h.role = "model") :
    gatewayRequestMessages sys (buildAnalysisMessages transcript task (h :: rest)) =
      { role := "system", content := sys } ::
        { role := "user", content := seedContent transcript task } ::
          (h :: rest).map replayMsg ∧
    (∃ pre post, seedContent transcript task = pre ++ transcript ++ post) ∧
    buildAnalysisMessages transcript task [] =
      [{ role := "user", content := seedContent transcript task }] := by
  refine ⟨?_, ?_, rfl⟩
  · simp [gatewayRequestMessages, buildAnalysisMessages, hrole]
  · exact ⟨"以下是已校正的會議逐字稿：\n---\n",
      "\n---\n\n【模組任務目標】\n" ++ task ++
        "\n\n請根據以上逐字稿，執行任務目標，以繁體中文輸出。",
      by simp [seedContent, String.append_assoc]⟩

/-- Claim C2 witness at a concrete history. -/
theorem c2_seed_invariant_witness :
    gatewayRequestMessages "sys" (buildAnalysisMessages "T" "task"
        [{ role := "model", text := "analysis" }]) =
      { role := "system", content := "sys" } ::
        { role := "user", content := seedContent "T" "task" } ::
          [{ role := "model", text := "analysis" }].map replayMsg :=
  (c2_seed_invariant "sys" "T" "task" { role := "model", text := "analysis" } [] rfl).1

/-- Claim C6: a successful transport response with absent or empty
completion text is rejected at every layer — the proxy extraction fails
with the empty-result error, the client service rejects an absent/empty
`text` body field, and the controller creates no `TranscriptVersion` or
`ModuleVersion` from an empty (or whitespace-only) result, surfacing the
empty-result error when its validation had passed. -/
theorem c6_empty_result_rejected (content : Option String)
    (hc : content = none ∨ content = some "")
    (s : MAState) (st : Store) (ok : Bool) (moduleId r : String)
    (hr : jsTrim r = "") :
    extractText content = Except.error "AI 回傳空白結果，請稍後重試" ∧
    callProxy (ProxyResponse.body content) =
      Except.error "API 回傳空白結果，請稍後重試" ∧
    (runCorrection (Except.ok r) ok s st).tvInsertAttempted = false ∧
    (runCorrection (Except.ok r) ok s st).createdTV = false ∧
    (runInitialAnalysis moduleId (Except.ok r) ok s st).mvInsertAttempted = false ∧
    (runInitialAnalysis moduleId (Except.ok r) ok s st).createdMV = false ∧
    (¬(s.activeRecordId = none ∨ jsTrim s.localTranscript = "") →
      (runCorrection (Except.ok r) ok s st).state.errorMsg =
        some "校正發生錯誤：AI 回傳空白結果，請稍後重試") := by
  refine ⟨?_, ?_, ?_, ?_, ?_, ?_, ?_⟩
  · rcases hc with hc | hc <;> simp [hc, extractText]
  · rcases hc with hc | hc <;> simp [hc, callProxy]
  · unfold runCorrection
    split
    · rfl
    · simp [hr]
  · unfold runCorrection
    split
    · rfl
    · simp [hr]
  · unfold runInitialAnalysis
    split
    · rfl
    · split
      · rfl
      · simp [hr]
  · unfold runInitialAnalysis
    split
    · rfl
    · split
      · rfl
      · simp [hr]
  · intro hval
    unfold runCorrection
    rw [if_neg hval]
    simp [hr]

/-- Claim C6 witness: absent content, empty result, valid pre-state. -/
theorem c6_empty_result_rejected_witness :
    extractText none = Except.error "AI 回傳空白結果，請稍後重試" ∧
    (runCorrection (Except.ok "") true (initState "r" "raw") initStore).createdTV
      = false :=
  ⟨(c6_empty_result_rejected none (Or.inl rfl) (initState "r" "raw") initStore
      true "A" "" rfl).1,
    (c6_empty_result_rejected none (Or.inl rfl) (initState "r" "raw") initStore
      true "A" "" rfl).2.2.2.1⟩

/-- Claim C10: an `analyzeTranscript` request whose `moduleId` is not one
of the five fixed keys is not rejected — the task falls back to the
caller-supplied `moduleName`, or to the generic task string when the name
is empty, and the message list is built by the same pipeline as for a
known module. -/
theorem c10_unknown_module_fallback (moduleId moduleName transcript : String)
    (history : List ChatMessage)
    (hid : moduleTaskMap moduleId = none)
    (htr : jsTrim transcript ≠ "") :
    moduleTask moduleId moduleName =
      (if moduleName ≠ "" then moduleName else genericTask) ∧
    analyzeRequest transcript moduleId moduleName history =
      Except.ok (buildAnalysisMessages transcript
        (if moduleName ≠ "" then moduleName else genericTask) history) := by
  have htask : moduleTask moduleId moduleName =
      (if moduleName ≠ "" then moduleName else genericTask) := by
    unfold moduleTask
    split
    · rw [hid]
    · rfl
  refine ⟨htask, ?_⟩
  unfold analyzeRequest
  rw [if_neg htr, htask]

/-- Claim C10 witness: unknown module id `"Z"` with an empty name falls
back to the generic task. -/
theorem c10_unknown_module_fallback_witness :
    analyzeRequest "T" "Z" "" [] =
      Except.ok (buildAnalysisMessages "T" genericTask []) := by
  have h := (c10_unknown_module_fallback "Z" "" "T" [] rfl (by decide)).2
  simpa using h

/-- Claim C4: failed mutating operations preserve navigation and version
state — when the gateway result is an error or an empty completion, a
correction run leaves the step unchanged and attempts no
`transcript_versions` insert, and a module analysis attempts no
`module_versions` insert; moreover a `module_versions` insert is ever
attempted only after a gateway success with nonempty text. -/
theorem c4_failures_atomic (s : MAState) (st : Store)
    (gw : Except String String) (ok : Bool) (mid : String)
    (hfail : ∀ r, gw = Except.ok r → jsTrim r = "") :
    (runCorrection gw ok s st).state.step = s.step ∧
    (runCorrection gw ok s st).tvInsertAttempted = false ∧
    (runCorrection gw ok s st).createdTV = false ∧
    (runCorrection gw ok s st).state.transcriptVersions = s.transcriptVersions ∧
    (runInitialAnalysis mid gw ok s st).mvInsertAttempted = false ∧
    (runInitialAnalysis mid gw ok s st).createdMV = false ∧
    (runInitialAnalysis mid gw ok s st).state.moduleVersionsMap =
      s.moduleVersionsMap ∧
    (∀ gw2 : Except String String,
      (runInitialAnalysis mid gw2 ok s st).mvInsertAttempted = true →
      ∃ r, gw2 = Except.ok r ∧ jsTrim r ≠ "") := by
  have hcor : (runCorrection gw ok s st).state.step = s.step ∧
      (runCorrection gw ok s st).tvInsertAttempted = false ∧
      (runCorrection gw ok s st).createdTV = false ∧
      (runCorrection gw ok s st).state.transcriptVersions = s.transcriptVersions := by
    unfold runCorrection
    split
    · exact ⟨rfl, rfl, rfl, rfl⟩
    · cases gw with
      | error e => exact ⟨rfl, rfl, rfl, rfl⟩
      | ok r =>
        have hr : jsTrim r = "" := hfail r rfl
        simp [hr]
  have hana : (runInitialAnalysis mid gw ok s st).mvInsertAttempted = false ∧
      (runInitialAnalysis mid gw ok s st).createdMV = false ∧
      (runInitialAnalysis mid gw ok s st).state.moduleVersionsMap =
        s.moduleVersionsMap := by
    unfold runInitialAnalysis
    split
    · exact ⟨rfl, rfl, rfl⟩
    · split
      · exact ⟨rfl, rfl, rfl⟩
      · cases gw with
        | error e => exact ⟨rfl, rfl, rfl⟩
        | ok r =>
          have hr : jsTrim r = "" := hfail r rfl
          simp [hr]
  refine ⟨hcor.1, hcor.2.1, hcor.2.2.1, hcor.2.2.2, hana.1, hana.2.1, hana.2.2, ?_⟩
  intro gw2
  unfold runInitialAnalysis
  split
  · intro h; simp at h
  · split
    · intro h; simp at h
    · cases gw2 with
      | error e => intro h; simp at h
      | ok r =>
        by_cases hr : jsTrim r = ""
        · simp [hr]
        · simp only [if_neg hr]
          split
          · intro _; exact ⟨r, rfl, hr⟩
          · intro _; exact ⟨r, rfl, hr⟩

/-- Claim C4 witness: a gateway transport error against a concrete state. -/
theorem c4_failures_atomic_witness :
    (runCorrection (Except.error "boom") true (initState "r" "raw")
      initStore).state.step = (initState "r" "raw").step :=
  (c4_failures_atomic (initState "r" "raw") initStore (Except.error "boom")
    true "A" (fun r h => by cases h)).1

/-- `find?` over a message-only update of the matching element. -/
theorem find_map_msgUpdate (l : List ModuleVersion) (n : Nat)
    (msgs : List ChatMessage) (v : ModuleVersion)
    (h : l.find? (fun w => w.versionNumber = n) = some v) :
    (l.map (fun (w : ModuleVersion) =>
        if w.versionNumber = n then { w with messages := msgs } else w)).find?
      (fun w => w.versionNumber = n) =
      some { v with messages := msgs } := by
  induction l with
  | nil => simp [List.find?] at h
  | cons a rest ih =>
    by_cases ha : a.versionNumber = n
    · rw [List.find?_cons_of_pos _ (by simpa using ha)] at h
      cases h
      simp only [List.map_cons, if_pos ha]
      rw [List.find?_cons_of_pos _ (by simpa using ha)]
    · rw [List.find?_cons_of_neg _ (by simpa using ha)] at h
      simp only [List.map_cons, if_neg ha]
      rw [List.find?_cons_of_neg _ (by simpa using ha)]
      exact ih h

/-- Claim C5: on a gateway failure in `sendModuleChat`, the optimistically
appended user message remains in the active module version's in-memory
message list and in the persisted chat rows, no model message is appended
anywhere, and the chat error is surfaced. -/
theorem c5_optimistic_asymmetry (s : MAState) (st : Store) (mid e : String)
    (activeVer : ModuleVersion)
    (hguard : ¬(jsTrim ((alist.lookup s.chatInputs mid).getD "") = "" ∨
      s.isLoading = true ∨ currentTranscriptVersion s = none))
    (hfind : (lookupVersions s.moduleVersionsMap mid).find?
        (fun v => v.versionNumber = jsOr1 (alist.lookup s.activeModuleVersion mid)) =
      some activeVer) :
    (lookupVersions
        (sendModuleChat mid (Except.error e) s st).state.moduleVersionsMap mid).find?
      (fun v => v.versionNumber = jsOr1 (alist.lookup s.activeModuleVersion mid)) =
      some { activeVer with messages := activeVer.messages ++
        [{ role := "user", text := (alist.lookup s.chatInputs mid).getD "" }] } ∧
    (sendModuleChat mid (Except.error e) s st).store.chatRows =
      st.chatRows ++
        [(activeVer.id, "user", (alist.lookup s.chatInputs mid).getD "")] ∧
    (sendModuleChat mid (Except.error e) s st).state.errorMsg =
      some ("對話分析發生錯誤：" ++ e) ∧
    (sendModuleChat mid (Except.error e) s st).raised = true := by
  simp only [sendModuleChat]
  rw [if_neg hguard, hfind]
  refine ⟨?_, rfl, rfl, rfl⟩
  rw [lookupVersions_set_self]
  exact find_map_msgUpdate _ _ _ _ hfind

/-- A concrete controller state with one transcript version and one
module-A version holding a single model message; `input` is the chat
input buffer for module A. Used to evaluate the chat claims. -/
def sampleChatState (input : String) : MAState :=
  { activeRecordId := some "r"
    step := 3
    localTranscript := "raw"
    transcriptVersions := [{ versionNumber := 1, correctedTranscript := "ct" }]
    activeTranscriptVersion := 1
    moduleVersionsMap :=
      [("A", [{ id := "A-v1"
                moduleId := "A"
                versionNumber := 1
                messages := [{ role := "model", text := "analysis" }] }])]
    activeModuleVersion := [("A", 1)]
    chatInputs := [("A", input)]
    errorMsg := none
    isLoading := false }

/-- Claim C5 witness at a concrete one-version state. -/
theorem c5_optimistic_asymmetry_witness :
    (sendModuleChat "A" (Except.error "down") (sampleChatState "why?")
      initStore).store.chatRows =
      initStore.chatRows ++ [("A-v1", "user", "why?")] :=
  (c5_optimistic_asymmetry (sampleChatState "why?") initStore "A" "down"
    { id := "A-v1"
      moduleId := "A"
      versionNumber := 1
      messages := [{ role := "model", text := "analysis" }] }
    (by decide) (by decide)).2.1

/-- Claim C3 counterexample: `sendModuleChat` with an empty input buffer
(on an otherwise fully valid state) is rejected before any gateway call,
but nothing is surfaced to the user — the state, including the error
message, is completely unchanged. This refutes the claim that each such
rejection is surfaced immediately. -/
theorem c3_counterexample :
    (sendModuleChat "A" (Except.ok "reply") (sampleChatState "")
      initStore).gatewayCalled = false ∧
    (sendModuleChat "A" (Except.ok "reply") (sampleChatState "")
      initStore).state = sampleChatState "" ∧
    (sendModuleChat "A" (Except.ok "reply") (sampleChatState "")
      initStore).state.errorMsg = none := by
  refine ⟨?_, ?_, ?_⟩ <;> decide

/-- Claim C3 (amended): validation failures are rejected before any
gateway call — `runCorrection` with an empty/whitespace transcript and
`runInitialAnalysis` with no active transcript version surface an error
message immediately while mutating nothing else; `sendModuleChat` with an
empty input, a call in flight, no active transcript version, or no
existing module version is a silent no-op (no gateway call, no error
surfaced, no state or store change). -/
theorem c3_fail_fast (s : MAState) (st : Store) (gw : Except String String)
    (ok : Bool) (mid : String) :
    (jsTrim s.localTranscript = "" →
      (runCorrection gw ok s st).gatewayCalled = false ∧
      (runCorrection gw ok s st).state =
        { s with errorMsg := some "請先輸入原始逐字稿內容" } ∧
      (runCorrection gw ok s st).store = st) ∧
    (currentTranscriptVersion s = none →
      (runInitialAnalysis mid gw ok s st).gatewayCalled = false ∧
      (runInitialAnalysis mid gw ok s st).state =
        { s with errorMsg := some "請先完成逐字稿校正後再執行模組分析" } ∧
      (runInitialAnalysis mid gw ok s st).store = st) ∧
    ((jsTrim ((alist.lookup s.chatInputs mid).getD "") = "" ∨
        s.isLoading = true ∨ currentTranscriptVersion s = none ∨
        (lookupVersions s.moduleVersionsMap mid).find?
          (fun v => v.versionNumber = jsOr1 (alist.lookup s.activeModuleVersion mid))
          = none) →
      (sendModuleChat mid gw s st).gatewayCalled = false ∧
      (sendModuleChat mid gw s st).state = s ∧
      (sendModuleChat mid gw s st).store = st) := by
  refine ⟨?_, ?_, ?_⟩
  · intro h
    unfold runCorrection
    rw [if_pos (Or.inr h)]
    exact ⟨rfl, rfl, rfl⟩
  · intro h
    unfold runInitialAnalysis
    rw [h]
    exact ⟨rfl, rfl, rfl⟩
  · intro h
    simp only [sendModuleChat]
    by_cases hg : jsTrim ((alist.lookup s.chatInputs mid).getD "") = "" ∨
        s.isLoading = true ∨ currentTranscriptVersion s = none
    · rw [if_pos hg]
      exact ⟨rfl, rfl, rfl⟩
    · have hfind : (lookupVersions s.moduleVersionsMap mid).find?
          (fun v => v.versionNumber = jsOr1 (alist.lookup s.activeModuleVersion mid))
          = none := by
        rcases h with h | h | h | h
        · exact absurd (Or.inl h) hg
        · exact absurd (Or.inr (Or.inl h)) hg
        · exact absurd (Or.inr (Or.inr h)) hg
        · exact h
      rw [if_neg hg, hfind]
      exact ⟨rfl, rfl, rfl⟩

/-- Claim C3 witness: empty transcript buffer, concrete state. -/
theorem c3_fail_fast_witness :
    (runCorrection (Except.ok "fixed") true (initState "r" "")
      initStore).gatewayCalled = false :=
  ((c3_fail_fast (initState "r" "") initStore (Except.ok "fixed") true "A").1
    (by decide)).1

/-- Claim C7: while zero transcript versions exist, the Correction and
Insight header buttons are disabled (the blocking condition is signaled as
the rendered disabled state), and no event moves the step away from Input
other than a correction run whose gateway call succeeded with nonempty
text. Nav events are restricted to the three rendered buttons. -/
theorem c7_input_locked (s : MAState) (st : Store) (ev : Ev)
    (htv : s.transcriptVersions = []) (hstep : s.step = 1)
    (hev : ∀ t, ev = Ev.nav t → t = 1 ∨ t = 2 ∨ t = 3) :
    navDisabled s 2 = true ∧ navDisabled s 3 = true ∧
    ((stepEv s st ev).state.step ≠ 1 →
      ∃ gw ok r, ev = Ev.correct gw ok ∧ gw = Except.ok r ∧ jsTrim r ≠ "" ∧
        (stepEv s st ev).state.step = 2) := by
  have hcur : currentTranscriptVersion s = none := by
    simp [currentTranscriptVersion, htv]
  refine ⟨by simp [navDisabled, htv], by simp [navDisabled, htv], ?_⟩
  intro hne
  cases ev with
  | correct gw ok =>
    simp only [stepEv] at hne ⊢
    unfold runCorrection at hne ⊢
    split at hne
    · exact absurd hstep hne
    · rename_i hval
      cases gw with
      | error e => exact absurd hstep hne
      | ok r =>
        by_cases hr : jsTrim r = ""
        · simp [hr] at hne
          exact absurd hstep hne
        · refine ⟨Except.ok r, ok, r, rfl, rfl, hr, ?_⟩
          rw [if_neg hval]
          simp only [if_neg hr]
          split <;> rfl
  | analyze mid gw ok =>
    simp only [stepEv] at hne
    unfold runInitialAnalysis at hne
    rw [hcur] at hne
    exact absurd hstep hne
  | chat mid gw =>
    simp only [stepEv] at hne
    simp only [sendModuleChat] at hne
    rw [if_pos (Or.inr (Or.inr hcur))] at hne
    exact absurd hstep hne
  | typeChat id text => exact absurd hstep hne
  | editTranscript t => exact absurd hstep hne
  | nav t =>
    rcases hev t rfl with h1 | h23 | h23
    · subst h1
      simp only [stepEv, pureResult, clickNav] at hne
      split at hne
      · exact absurd hstep hne
      · exact absurd rfl hne
    all_goals
      subst h23
      simp only [stepEv, pureResult, clickNav] at hne
      rw [if_pos (by simp [navDisabled, htv])] at hne
      exact absurd hstep hne
  | insight =>
    simp only [stepEv, pureResult, enterInsight] at hne
    rw [if_neg (by rw [hstep]; decide)] at hne
    exact absurd hstep hne

/-- Claim C7 witness: a fresh record, attempting manual navigation to the
Insight step. -/
theorem c7_input_locked_witness :
    navDisabled (initState "r" "raw") 2 = true ∧
    (stepEv (initState "r" "raw") initStore (Ev.nav 3)).state.step = 1 := by
  have h := c7_input_locked (initState "r" "raw") initStore (Ev.nav 3) rfl rfl
    (fun t ht => by cases ht; exact Or.inr (Or.inr rfl))
  refine ⟨h.1, ?_⟩
  by_contra hne
  obtain ⟨gw, ok, r, hev, -⟩ := h.2.2 hne
  cases hev

/-- The last element of a list ordered nondecreasingly under `f` is a
maximum. -/
theorem getLast_max {α : Type} (f : α → Nat) :
    ∀ (l : List α), l.Pairwise (fun a b => f a ≤ f b) → l ≠ [] →
    ∃ v, l.getLast? = some v ∧ v ∈ l ∧ ∀ w ∈ l, f w ≤ f v := by
  intro l
  induction l with
  | nil => intro _ h; exact absurd rfl h
  | cons a t ih =>
    intro hp _
    rcases List.pairwise_cons.mp hp with ⟨ha, ht⟩
    cases t with
    | nil => exact ⟨a, rfl, List.mem_singleton.mpr rfl, by simp⟩
    | cons b t2 =>
      obtain ⟨v, hv1, hv2, hv3⟩ := ih ht (by simp)
      refine ⟨v, ?_, List.mem_cons_of_mem a hv2, ?_⟩
      · rwa [List.getLast?_cons_cons]
      · intro w hw
        rcases List.mem_cons.mp hw with hw | hw
        · subst hw; exact ha v hv2
        · exact hv3 w hw

/-- `buildModuleMap` groups rows by module id, preserving order:
looking up a module yields exactly the rows of that module. -/
theorem lookupVersions_buildModuleMap (rows : List ModuleVersion) (id : String) :
    lookupVersions (buildModuleMap rows) id =
      rows.filter (fun v => v.moduleId = id) := by
  suffices h : ∀ (m : List (String × List ModuleVersion)),
      lookupVersions (rows.foldl (fun m mv =>
        alist.set m mv.moduleId (lookupVersions m mv.moduleId ++ [mv])) m) id =
      lookupVersions m id ++ rows.filter (fun v => v.moduleId = id) by
    have h2 := h []
    simpa [buildModuleMap, lookupVersions, alist.lookup, List.find?] using h2
  induction rows with
  | nil => intro m; simp
  | cons mv rest ih =>
    intro m
    simp only [List.foldl_cons]
    rw [ih]
    by_cases hid : mv.moduleId = id
    · subst hid
      rw [lookupVersions_set_self]
      simp [List.filter_cons]
    · rw [lookupVersions_set_ne _ _ _ _ (fun h => hid h.symm)]
      simp [List.filter_cons, hid]

/-- `latestActive` keeps keys and maps each version list to its last
version number. -/
theorem lookup_latestActive (m : List (String × List ModuleVersion))
    (id : String) :
    alist.lookup (latestActive m) id =
      (alist.lookup m id).map
        (fun l => ((l.getLast?.map (fun v => v.versionNumber)).getD 0)) := by
  induction m with
  | nil => simp [latestActive, alist.lookup, List.find?]
  | cons p rest ih =>
    by_cases hp : p.1 = id
    · simp [latestActive, alist.lookup, List.find?, hp]
    · simpa [latestActive, alist.lookup, List.find?, hp] using ih

/-- Claim C8: selecting a record resets the step to Input regardless of
version counts, loads the transcript versions as queried (ascending), sets
the active transcript version to the highest version number (1 when none
exist), loads each module's versions, and sets each module's active
version to that module's latest. Hypotheses state the ascending order the
store queries guarantee. -/
theorem c8_select_record (rid raw : String) (tvRows : List TranscriptVersion)
    (mvRows : List ModuleVersion) (s : MAState)
    (htv : tvRows.Pairwise (fun a b => a.versionNumber ≤ b.versionNumber))
    (hmv : mvRows.Pairwise (fun a b => a.versionNumber ≤ b.versionNumber)) :
    (selectRecord rid raw tvRows mvRows s).step = 1 ∧
    (selectRecord rid raw tvRows mvRows s).transcriptVersions = tvRows ∧
    (tvRows = [] →
      (selectRecord rid raw tvRows mvRows s).activeTranscriptVersion = 1) ∧
    (tvRows ≠ [] →
      ∃ v, v ∈ tvRows ∧
        (selectRecord rid raw tvRows mvRows s).activeTranscriptVersion =
          v.versionNumber ∧
        ∀ w ∈ tvRows, w.versionNumber ≤ v.versionNumber) ∧
    (∀ id, lookupVersions
        (selectRecord rid raw tvRows mvRows s).moduleVersionsMap id =
      mvRows.filter (fun v => v.moduleId = id)) ∧
    (∀ id, mvRows.filter (fun v => v.moduleId = id) ≠ [] →
      ∃ v, v ∈ mvRows.filter (fun v => v.moduleId = id) ∧
        alist.lookup
            (selectRecord rid raw tvRows mvRows s).activeModuleVersion id =
          some v.versionNumber ∧
        ∀ w ∈ mvRows.filter (fun v => v.moduleId = id),
          w.versionNumber ≤ v.versionNumber) := by
  refine ⟨rfl, rfl, ?_, ?_, ?_, ?_⟩
  · intro h
    simp [selectRecord, h]
  · intro h
    obtain ⟨v, hv1, hv2, hv3⟩ := getLast_max (fun v => v.versionNumber) tvRows htv h
    refine ⟨v, hv2, ?_, hv3⟩
    simp [selectRecord, hv1]
  · intro id
    exact lookupVersions_buildModuleMap mvRows id
  · intro id hne
    have hfil := lookupVersions_buildModuleMap mvRows id
    have hpair : (mvRows.filter (fun v => v.moduleId = id)).Pairwise
        (fun a b => a.versionNumber ≤ b.versionNumber) := hmv.filter _
    obtain ⟨v, hv1, hv2, hv3⟩ :=
      getLast_max (fun v => v.versionNumber) _ hpair hne
    refine ⟨v, hv2, ?_, hv3⟩
    have hlk : alist.lookup (buildModuleMap mvRows) id =
        some (mvRows.filter (fun v => v.moduleId = id)) := by
      cases hcase : alist.lookup (buildModuleMap mvRows) id with
      | none =>
        exfalso
        apply hne
        rw [← hfil]
        simp [lookupVersions, hcase]
      | some l =>
        have : lookupVersions (buildModuleMap mvRows) id = l := by
          simp [lookupVersions, hcase]
        rw [this] at hfil
        rw [hfil]
    show alist.lookup (latestActive (buildModuleMap mvRows)) id = _
    rw [lookup_latestActive, hlk]
    simp [hv1]

/-- Claim C8 witness: two transcript versions, modules A and B with
interleaved rows. -/
theorem c8_select_record_witness :
    (selectRecord "r" "raw"
      [{ versionNumber := 1, correctedTranscript := "c1" },
        { versionNumber := 2, correctedTranscript := "c2" }]
      [{ id := "A-v1", moduleId := "A", versionNumber := 1, messages := [] },
        { id := "B-v1", moduleId := "B", versionNumber := 1, messages := [] },
        { id := "A-v2", moduleId := "A", versionNumber := 2, messages := [] }]
      (initState "r" "x")).step = 1 :=
  (c8_select_record "r" "raw"
    [{ versionNumber := 1, correctedTranscript := "c1" },
      { versionNumber := 2, correctedTranscript := "c2" }]
    [{ id := "A-v1", moduleId := "A", versionNumber := 1, messages := [] },
      { id := "B-v1", moduleId := "B", versionNumber := 1, messages := [] },
      { id := "A-v2", moduleId := "A", versionNumber := 2, messages := [] }]
    (initState "r" "x") (by decide) (by decide)).1

/-- Edits never write to the store themselves. -/
theorem applyEdit_writes (d : DebounceState) (e : EditEv) :
    (applyEdit d e).writes = d.writes := by
  cases e <;> rfl

/-- A whole burst of edits never writes to the store. -/
theorem applyEdits_writes (es : List EditEv) :
    ∀ d : DebounceState, (applyEdits d es).writes = d.writes := by
  induction es with
  | nil => intro d; rfl
  | cons e rest ih =>
    intro d
    show (applyEdits (applyEdit d e) rest).writes = d.writes
    rw [ih, applyEdit_writes]

/-- After a nonempty burst exactly one write is pending. -/
theorem applyEdits_pending (es : List EditEv) :
    ∀ d : DebounceState, es ≠ [] →
      ∃ w, (applyEdits d es).pending = some w := by
  induction es with
  | nil => intro _ h; exact absurd rfl h
  | cons e rest ih =>
    intro d _
    cases hr : rest with
    | nil =>
      cases e with
      | metadata f v => exact ⟨_, rfl⟩
      | transcript v => exact ⟨_, rfl⟩
    | cons e2 rest2 =>
      have h2 := ih (applyEdit d e) (by simp [hr])
      rw [hr] at h2
      exact h2

/-- Claim C9: each metadata/transcript edit updates the local buffer
synchronously and replaces the single pending debounced write
(cancel-and-reschedule); no store write happens during a burst of edits,
and when the timer finally fires, exactly one store write — the pending
one — is performed for the whole burst. -/
theorem c9_debounced_autosave (d : DebounceState) (es : List EditEv)
    (f : MetaField) (v : String) (e : EditEv) (hes : es ≠ []) :
    (applyEdit d (EditEv.transcript v)).localTranscript = v ∧
    (applyEdit d (EditEv.metadata f v)).localMetadata =
      setMetaField f v d.localMetadata ∧
    (applyEdit d e).pending = some (match e with
      | .metadata f2 v2 => SaveFields.metadata (setMetaField f2 v2 d.localMetadata)
      | .transcript v2 => SaveFields.rawTranscript v2) ∧
    (applyEdits d es).writes = d.writes ∧
    ∃ w, (applyEdits d es).pending = some w ∧
      (fireTimer (applyEdits d es)).writes = d.writes ++ [w] := by
  refine ⟨rfl, rfl, ?_, applyEdits_writes es d, ?_⟩
  · cases e <;> rfl
  · obtain ⟨w, hw⟩ := applyEdits_pending es d hes
    refine ⟨w, hw, ?_⟩
    unfold fireTimer
    rw [hw]
    simp [applyEdits_writes es d]

/-- The all-empty metadata object. -/
def emptyMetadata : MeetingMetadata :=
  { subject := ""
    keywords := ""
    speakers := ""
    terminology := ""
    targetLength := "" }

/-- A quiescent debounce state: empty buffers, no pending timer, no
writes performed. -/
def idleDebounce : DebounceState :=
  { localMetadata := emptyMetadata
    localTranscript := ""
    pending := none
    writes := [] }

/-- Claim C9 witness: a two-edit burst on the transcript performs no
store write before the timer fires. -/
theorem c9_debounced_autosave_witness :
    (applyEdits idleDebounce
      [EditEv.transcript "a", EditEv.transcript "ab"]).writes = [] :=
  (c9_debounced_autosave idleDebounce
    [EditEv.transcript "a", EditEv.transcript "ab"]
    MetaField.subject "x" (EditEv.transcript "y") (by decide)).2.2.2.1

end MeetingApp
